import Mathlib

/-!
# Verification of the weather-route-api core

Shallow embedding of the `RouteWeatherService` orchestration engine
(`src/server.js`, with the earlier iteration `src/unnamed/part_000` where a
claim refers to it) and proofs of the spec claims about it.

Modelling conventions:
* JS numbers are modelled as exact rationals (`ℚ`); `Math.floor` is `Int.floor`.
* `Date` values are their epoch-millisecond value (`ℚ`); locale rendering of
  timestamps (`toLocaleTimeString`) is out of scope, the underlying instant is
  kept in the `timeMs` field.
* The network collaborators `_getWeather`/`_getCityName` (which never throw:
  they catch internally and return fallback values) are modelled as total
  function parameters bundled in `Env`.
* `while` loops are modelled with an explicit fuel argument; the fuel chosen by
  the entry point is proved sufficient for the loop to reach its `break`.
-/

namespace WeatherRoute

/-! ## Definitions -/

/-- A route-geometry point as delivered by the providers: a GeoJSON
`[lng, lat]` pair (`src/server.js` line 241 destructures `[lng, lat]`). -/
structure PathPoint where
  lng : ℚ
  lat : ℚ
deriving DecidableEq
/-- The common route shape produced by each provider adapter
(`_getOSRMRoute` / `_getGraphHopperRoute` / `_getMapboxRoute`,
`src/server.js` lines 121-155). -/
structure RouteData where
  duration : ℚ
  distance : ℚ
  path : List PathPoint
  provider : String
deriving DecidableEq
/-- Result of `_getWeather` (`src/server.js` lines 201-213): a temperature
(`none` models the `"--"` sentinel returned on failure) and a WMO code. -/
structure WeatherRaw where
  temp : Option ℚ
  code : ℤ
deriving DecidableEq
/-- The `weather` sub-object of a checkpoint (`src/server.js` lines 256-259). -/
structure WeatherInfo where
  temp : Option ℚ
  condition : String
deriving DecidableEq
/-- A checkpoint object (`src/server.js` lines 251-260).  `timeMs` is the
epoch-millisecond instant that `formattedTime` renders; `lat`/`lng` are
`Option` because the synthetic degraded checkpoint (lines 218-223) omits
them. -/
structure Checkpoint where
  timeMs : ℚ
  lat : Option ℚ
  lng : Option ℚ
  locationName : String
  distanceFromStart : ℤ
  weather : WeatherInfo
deriving DecidableEq
/-- The external enrichment collaborators used per checkpoint:
`getWeather lat lng timeMs` and `getCityName lat lng`.  In the source both
calls catch internally and always produce a value. -/
structure Env where
  getWeather : ℚ → ℚ → ℚ → WeatherRaw
  getCityName : ℚ → ℚ → String
/-- Constant `this.CHECKPOINT_INTERVAL` (`src/server.js` line 49), in seconds. -/
def CHECKPOINT_INTERVAL : ℚ := 3600
/-- Constant `this.CACHE_TTL` (`src/server.js` line 50), in milliseconds. -/
def CACHE_TTL : ℤ := 3600 * 1000
/-- Translator `_translateWMO` (`src/server.js` lines 271-279): fixed table lookup with
the generic fallback label built from the code. -/
def _translateWMO (code : ℤ) : String :=
  match code with
  | 0 => "Céu Limpo ☀️"
  | 1 => "Predom. Limpo 🌤️"
  | 2 => "Parcial. Nublado ⛅"
  | 3 => "Encoberto ☁️"
  | 45 => "Nevoeiro 🌫️"
  | 48 => "Nevoeiro c/ Geada 🌫️"
  | 51 => "Garoa Leve 🌧️"
  | 53 => "Garoa Moderada 🌧️"
  | 55 => "Garoa Densa 🌧️"
  | 61 => "Chuva Fraca ☔"
  | 63 => "Chuva Moderada ☔"
  | 65 => "Chuva Forte ⛈️"
  | 80 => "Pancadas de Chuva 🌦️"
  | 81 => "Pancadas Fortes ⛈️"
  | 95 => "Tempestade ⚡"
  | 96 => "Tempestade c/ Granizo ❄️⚡"
  | _ => "Clima (" ++ toString code ++ ")"
/-- The keys of the `_translateWMO` table. -/
def wmoKnownCodes : List ℤ :=
  [0, 1, 2, 3, 45, 48, 51, 53, 55, 61, 63, 65, 80, 81, 95, 96]
/-- The path-index computation of the interpolation loop
(`src/server.js` lines 235-237): floor of `progress * (length - 1)`,
then clamped below by 0 and above by `length - 1`. -/
def computePathIndex (progress : ℚ) (pathLength : ℕ) : ℤ :=
  let idx0 := ⌊progress * ((pathLength : ℚ) - 1)⌋
  let idx1 := if idx0 < 0 then 0 else idx0
  if (pathLength : ℤ) ≤ idx1 then (pathLength : ℤ) - 1 else idx1
/-- The synthetic degraded checkpoint returned when the provider delivered no
path (`src/server.js` lines 218-223).  The JS object carries no `lat`/`lng`
keys, hence `none`. -/
def syntheticCheckpoint (departureMs : ℚ) : Checkpoint :=
  { timeMs := departureMs
    lat := none
    lng := none
    locationName := "Local de Partida"
    distanceFromStart := 0
    weather := { temp := none, condition := "Dados indisponíveis" } }
/-- One iteration body of the interpolation loop (`src/server.js` lines
233-260): compute the future instant, the progress ratio, the clamped path
index; fetch the point (`none` models the `if (!point) break` guard firing);
enrich and build the checkpoint object. -/
def mkCheckpoint (env : Env) (totalDuration totalDistance : ℚ)
    (pathPoints : List PathPoint) (departureMs timeOffset : ℚ) :
    Option Checkpoint :=
  let futureDate := departureMs + timeOffset * 1000
  let progress : ℚ := if 0 < totalDuration then timeOffset / totalDuration else 0
  let pathIndex := computePathIndex progress pathPoints.length
  match pathPoints.get? pathIndex.toNat with
  | none => none
  | some point =>
    let weather := env.getWeather point.lat point.lng futureDate
    let cityName := env.getCityName point.lat point.lng
    some
      { timeMs := futureDate
        lat := some point.lat
        lng := some point.lng
        locationName := cityName
        distanceFromStart := ⌊totalDistance * progress / 1000⌋
        weather := { temp := weather.temp, condition := _translateWMO weather.code } }
/-- The `while (timeOffset <= totalDuration)` loop of `_processCheckpoints`
(`src/server.js` lines 232-267), with explicit fuel.  After the `break` test
the offset advances by `CHECKPOINT_INTERVAL` and the final step is clamped to
land exactly on `totalDuration` (lines 263-266). -/
def processLoop (env : Env) (totalDuration totalDistance : ℚ)
    (pathPoints : List PathPoint) (departureMs : ℚ) :
    ℕ → ℚ → List Checkpoint
  | 0, _ => []
  | fuel + 1, timeOffset =>
    if timeOffset ≤ totalDuration then
      match mkCheckpoint env totalDuration totalDistance pathPoints departureMs timeOffset with
      | none => []
      | some cp =>
        if totalDuration ≤ timeOffset then [cp]
        else
          let t2 := timeOffset + CHECKPOINT_INTERVAL
          cp :: processLoop env totalDuration totalDistance pathPoints departureMs fuel
            (if totalDuration < t2 ∧ t2 - CHECKPOINT_INTERVAL < totalDuration
              then totalDuration else t2)
    else []
/-- Fuel bound for `processLoop`: the offset grows by `CHECKPOINT_INTERVAL`
per iteration (or jumps to the terminal offset), so
`⌈totalDuration / CHECKPOINT_INTERVAL⌉ + 2` iterations always suffice from
offset 0 (proved in `offsetList_spec`). -/
def processFuel (totalDuration : ℚ) : ℕ :=
  (⌈totalDuration / CHECKPOINT_INTERVAL⌉).toNat + 2
/-- Interpolator `_processCheckpoints` (`src/server.js` lines 215-269).  `routeData = none`
models a falsy/absent route object; a missing, non-array or empty `path`
collapses to the empty list in this typed model.  The `|| 0` defaults on
`duration`/`distance` (lines 228-229) are the identity on exact rationals. -/
def _processCheckpoints (env : Env) (routeData : Option RouteData)
    (departureMs : ℚ) : List Checkpoint :=
  match routeData with
  | none => [syntheticCheckpoint departureMs]
  | some rd =>
    if rd.path.isEmpty then [syntheticCheckpoint departureMs]
    else
      processLoop env rd.duration rd.distance rd.path departureMs
        (processFuel rd.duration) 0
/-! ## Characterisation helpers for the interpolation loop -/
/-- The checkpoint that the loop body builds at a given offset, as a total
function (the partiality of `mkCheckpoint` disappears once the path is
non-empty, see `mkCheckpoint_eq_some`). -/
def checkpointAt (env : Env) (totalDuration totalDistance : ℚ)
    (pathPoints : List PathPoint) (departureMs timeOffset : ℚ) : Checkpoint :=
  let futureDate := departureMs + timeOffset * 1000
  let progress : ℚ := if 0 < totalDuration then timeOffset / totalDuration else 0
  let point := pathPoints.getD (computePathIndex progress pathPoints.length).toNat ⟨0, 0⟩
  { timeMs := futureDate
    lat := some point.lat
    lng := some point.lng
    locationName := env.getCityName point.lat point.lng
    distanceFromStart := ⌊totalDistance * progress / 1000⌋
    weather :=
      { temp := (env.getWeather point.lat point.lng futureDate).temp
        condition := _translateWMO (env.getWeather point.lat point.lng futureDate).code } }
/-- The offsets visited by the interpolation loop: the same recursion as
`processLoop` with the checkpoint construction stripped away and the clamped
advance written as a `min`. -/
def offsetList (totalDuration : ℚ) : ℕ → ℚ → List ℚ
  | 0, _ => []
  | fuel + 1, timeOffset =>
    if timeOffset ≤ totalDuration then
      if totalDuration ≤ timeOffset then [timeOffset]
      else
        timeOffset ::
          offsetList totalDuration fuel (min (timeOffset + CHECKPOINT_INTERVAL) totalDuration)
    else []
/-- Remaining-iteration bound for the loop, in interval units. -/
def loopMeasure (totalDuration timeOffset : ℚ) : ℕ :=
  (⌈(totalDuration - timeOffset) / CHECKPOINT_INTERVAL⌉).toNat
/-- A concrete enrichment environment used for witnesses and counterexamples:
the weather collaborator reports 20° with WMO code 2, reverse geocoding
reports "Curitiba, PR". -/
def cexEnv : Env :=
  ⟨fun _ _ _ => ⟨some 20, 2⟩, fun _ _ => "Curitiba, PR"⟩
/-! ## Route resolution cascade (`_getRouteWithFallback`, `src/server.js`
lines 94-119) -/
/-- A raw route as the OSRM/Mapbox HTTP responses deliver it (duration in
seconds). -/
structure RawRoute where
  duration : ℚ
  distance : ℚ
  path : List PathPoint
deriving DecidableEq
/-- A raw route as the GraphHopper HTTP response delivers it (`time` in
milliseconds; the adapter divides by 1000, `src/server.js` line 138). -/
structure RawGHRoute where
  time : ℚ
  distance : ℚ
  path : List PathPoint
deriving DecidableEq
/-- The state of the outside world for one cascade run: for each provider,
`none` means that its request fails (network error, timeout, or missing route
in the response — all surfaced as a thrown error in the source); the
credential fields model `this.GRAPHHOPPER_KEY` / `this.MAPBOX_TOKEN`
(`none` = unconfigured, i.e. falsy in JS). -/
structure ProviderEnv where
  osrm : Option RawRoute
  graphhopperKey : Option String
  graphhopper : Option RawGHRoute
  mapboxToken : Option String
  mapbox : Option RawRoute
/-- Adapter `_getOSRMRoute` (`src/server.js` lines 121-131): adapter stamping
`provider: 'OSRM'`. -/
def _getOSRMRoute (env : ProviderEnv) : Option RouteData :=
  env.osrm.map fun r =>
    { duration := r.duration, distance := r.distance, path := r.path, provider := "OSRM" }
/-- Adapter `_getGraphHopperRoute` (`src/server.js` lines 133-143): adapter dividing
`time` by 1000 and stamping `provider: 'GraphHopper'`. -/
def _getGraphHopperRoute (env : ProviderEnv) : Option RouteData :=
  env.graphhopper.map fun r =>
    { duration := r.time / 1000, distance := r.distance, path := r.path,
      provider := "GraphHopper" }
/-- Adapter `_getMapboxRoute` (`src/server.js` lines 145-155): adapter stamping
`provider: 'Mapbox'`. -/
def _getMapboxRoute (env : ProviderEnv) : Option RouteData :=
  env.mapbox.map fun r =>
    { duration := r.duration, distance := r.distance, path := r.path, provider := "Mapbox" }
/-- The error message thrown when all providers are exhausted
(`src/server.js` line 117). -/
def routeUnavailableMsg : String :=
  "Serviços de mapas indisponíveis. Verifique as chaves de API no servidor."
/-- Third stage of the cascade (`src/server.js` lines 111-118): Mapbox is
invoked only when its token is configured (an unconfigured token throws inside
the `try` before any request is made); any failure here is fatal.  The second
component accumulates the providers actually invoked. -/
def fallbackMapbox (env : ProviderEnv) (invoked : List String) :
    Except String RouteData × List String :=
  if env.mapboxToken.isSome then
    match _getMapboxRoute env with
    | some r => (Except.ok r, invoked ++ ["Mapbox"])
    | none => (Except.error routeUnavailableMsg, invoked ++ ["Mapbox"])
  else (Except.error routeUnavailableMsg, invoked)
/-- Cascade `_getRouteWithFallback` (`src/server.js` lines 94-119): try OSRM, then
GraphHopper (skipped, not invoked, when `GRAPHHOPPER_KEY` is unset), then
Mapbox; the first success returns immediately.  The second component records
which providers were invoked. -/
def _getRouteWithFallback (env : ProviderEnv) :
    Except String RouteData × List String :=
  match _getOSRMRoute env with
  | some r => (Except.ok r, ["OSRM"])
  | none =>
    if env.graphhopperKey.isSome then
      match _getGraphHopperRoute env with
      | some r => (Except.ok r, ["OSRM", "GraphHopper"])
      | none => fallbackMapbox env ["OSRM", "GraphHopper"]
    else fallbackMapbox env ["OSRM"]
/-! ## Request normalization (`getRouteForecast`, `src/server.js` lines 62-66)

Strings are modelled as lists of Unicode codepoints.  `trim` removes the
ASCII whitespace codes at both ends; `toLowerCase` is modelled on the ASCII
and Latin-1 uppercase ranges (the ranges exercised by the service's
Portuguese place names). -/
/-- Whitespace test used by `trim`: space, tab, LF, CR. -/
def isWsCode (n : ℕ) : Bool :=
  n == 32 || n == 9 || n == 10 || n == 13
/-- Lowercasing of one codepoint, as `toLowerCase` does it: ASCII `A`-`Z` and Latin-1 `À`-`Þ`
(excluding `×`, U+00D7) shift by 32; everything else is unchanged. -/
def jsToLowerCode (n : ℕ) : ℕ :=
  if (65 ≤ n ∧ n ≤ 90) ∨ (192 ≤ n ∧ n ≤ 222 ∧ n ≠ 215) then n + 32 else n
/-- Model of `String.prototype.trim`: drop whitespace from both ends. -/
def trimCodes (s : List ℕ) : List ℕ :=
  ((s.dropWhile isWsCode).reverse.dropWhile isWsCode).reverse
/-- Model of `text.trim().toLowerCase()` (`src/server.js` lines 63-64). -/
def normalizeKeyText (s : List ℕ) : List ℕ :=
  (trimCodes s).map jsToLowerCode
/-- The cache identity of a request: normalized origin, normalized
destination, and the hour bucket `departureDate.toISOString().slice(0, 13)`
(`src/server.js` lines 63-66, used as the lookup triple at line 68). -/
structure NormalizedKey where
  origin : List ℕ
  dest : List ℕ
  hourBucket : String
deriving DecidableEq
/-- Key construction from raw request texts plus the (externally computed,
`Date`-semantics) hour bucket. -/
def requestKey (originText destText : List ℕ) (hourBucket : String) : NormalizedKey :=
  ⟨normalizeKeyText originText, normalizeKeyText destText, hourBucket⟩
/-- Codepoints of a string literal, for concrete examples. -/
def codepoints (s : String) : List ℕ :=
  s.toList.map Char.toNat
/-! ## Cache layer (`_checkCache`, `src/server.js` lines 281-289 and
`src/unnamed/part_000` lines 73-83)

The `route_cache` table is modelled as the list of its rows in rowid
(insertion) order — the order in which SQLite returns rows for a query with
no `ORDER BY`. -/
/-- One row of the insert-only `route_cache` table
(`src/server.js` lines 29-36). -/
structure CacheRow where
  id : ℕ
  origin_text : String
  dest_text : String
  trip_date : String
  data : String
  created_at : ℤ
deriving DecidableEq
/-- The SQL `WHERE origin_text = ? AND dest_text = ? AND trip_date = ?`
filter. -/
def rowMatches (origin dest dateKey : String) (r : CacheRow) : Bool :=
  r.origin_text == origin && r.dest_text == dest && r.trip_date == dateKey
/-- Function `_checkCache` of `src/server.js` (lines 281-289): `db.get` with no
`ORDER BY` yields the first matching row in storage order, and the row's age
is never examined — the lookup instant `_now` is unused (`CACHE_TTL` is
defined at line 50 but not referenced here). -/
def _checkCache (rows : List CacheRow) (origin dest dateKey : String)
    (_now : ℤ) : Option String :=
  ((rows.filter (rowMatches origin dest dateKey)).head?).map CacheRow.data
/-- Newest-wins accumulator: keep the row with the larger `created_at`
(the incumbent wins ties). -/
def pickNewest (acc : Option CacheRow) (r : CacheRow) : Option CacheRow :=
  match acc with
  | none => some r
  | some best => if best.created_at < r.created_at then some r else some best
/-- The `SELECT * ... ORDER BY created_at DESC LIMIT 1` query of
`src/unnamed/part_000` line 75: the first matching row with maximal
`created_at`. -/
def queryLatest (rows : List CacheRow) (origin dest dateKey : String) :
    Option CacheRow :=
  (rows.filter (rowMatches origin dest dateKey)).foldl pickNewest none
/-- Function `_checkCache` of `src/unnamed/part_000` (lines 73-83): newest matching
row, served only while `Date.now() - row.created_at < this.CACHE_TTL`. -/
def _checkCache_part000 (rows : List CacheRow) (origin dest dateKey : String)
    (now : ℤ) : Option String :=
  match queryLatest rows origin dest dateKey with
  | some row => if now - row.created_at < CACHE_TTL then some row.data else none
  | none => none
/-- Lookup instant for the C1 evaluation: 2024-06-01T08:00:00Z in epoch ms. -/
def c1Now : ℤ := 1717228800000
/-- A cache row whose age is exactly `TTL + 1 s` at `c1Now`. -/
def staleRow : CacheRow :=
  ⟨1, "rio de janeiro", "são paulo", "2024-06-01T08", "stale-payload",
    c1Now - CACHE_TTL - 1000⟩
/-- An older fresh row (age 2 s at `c1Now`). -/
def oldRow : CacheRow :=
  ⟨1, "rio de janeiro", "são paulo", "2024-06-01T08", "old-payload", c1Now - 2000⟩
/-- A newer fresh row (age 1 s at `c1Now`). -/
def newRow : CacheRow :=
  ⟨2, "rio de janeiro", "são paulo", "2024-06-01T08", "new-payload", c1Now - 1000⟩

/-! ## Theorems -/

theorem computePathIndex_nonneg (progress : ℚ) {pathLength : ℕ}
    (h : 1 ≤ pathLength) : 0 ≤ computePathIndex progress pathLength := by
  simp only [computePathIndex]
  split <;> split <;> omega
theorem computePathIndex_lt (progress : ℚ) {pathLength : ℕ}
    (h : 1 ≤ pathLength) : computePathIndex progress pathLength < (pathLength : ℤ) := by
  simp only [computePathIndex]
  split <;> split <;> omega
theorem computePathIndex_toNat_lt (progress : ℚ) {pathLength : ℕ}
    (h : 1 ≤ pathLength) : (computePathIndex progress pathLength).toNat < pathLength := by
  have h1 := computePathIndex_nonneg progress h
  have h2 := computePathIndex_lt progress h
  omega
theorem mkCheckpoint_eq_some (env : Env) (totalDuration totalDistance : ℚ)
    {pathPoints : List PathPoint} (departureMs timeOffset : ℚ)
    (hne : pathPoints ≠ []) :
    mkCheckpoint env totalDuration totalDistance pathPoints departureMs timeOffset =
      some (checkpointAt env totalDuration totalDistance pathPoints departureMs timeOffset) := by
  have hlen : 1 ≤ pathPoints.length := by
    cases pathPoints with
    | nil => exact absurd rfl hne
    | cons a l => simp
  have hidx := computePathIndex_toNat_lt
    (if 0 < totalDuration then timeOffset / totalDuration else 0) hlen
  simp only [mkCheckpoint, checkpointAt, List.get?_eq_get hidx,
    List.getD_eq_getD_get?, Option.getD_some]
theorem processLoop_of_gt (env : Env) (totalDuration totalDistance : ℚ)
    (pathPoints : List PathPoint) (departureMs : ℚ) (fuel : ℕ) {timeOffset : ℚ}
    (h : ¬ timeOffset ≤ totalDuration) :
    processLoop env totalDuration totalDistance pathPoints departureMs fuel timeOffset = [] := by
  cases fuel <;> simp [processLoop, h]
/-- With a non-empty path, the loop is precisely the map of the per-offset
checkpoint constructor over the visited offsets. -/
theorem processLoop_eq_map (env : Env) (totalDuration totalDistance : ℚ)
    {pathPoints : List PathPoint} (departureMs : ℚ) (hne : pathPoints ≠ []) :
    ∀ (fuel : ℕ) (timeOffset : ℚ),
      processLoop env totalDuration totalDistance pathPoints departureMs fuel timeOffset =
        (offsetList totalDuration fuel timeOffset).map
          (checkpointAt env totalDuration totalDistance pathPoints departureMs) := by
  intro fuel
  induction fuel with
  | zero => intro timeOffset; rfl
  | succ fuel ih =>
    intro timeOffset
    by_cases h1 : timeOffset ≤ totalDuration
    · by_cases h2 : totalDuration ≤ timeOffset
      · simp [processLoop, offsetList, h1, h2,
          mkCheckpoint_eq_some env totalDuration totalDistance departureMs timeOffset hne]
      · have hmin :
            (if totalDuration < timeOffset + CHECKPOINT_INTERVAL ∧
                timeOffset + CHECKPOINT_INTERVAL - CHECKPOINT_INTERVAL < totalDuration
              then totalDuration else timeOffset + CHECKPOINT_INTERVAL) =
            min (timeOffset + CHECKPOINT_INTERVAL) totalDuration := by
          have hlt : timeOffset < totalDuration := lt_of_le_of_lt (le_refl _) (by
            exact lt_of_le_of_ne h1 (fun he => h2 (le_of_eq he.symm)))
          rcases le_or_lt (timeOffset + CHECKPOINT_INTERVAL) totalDuration with hc | hc
          · rw [min_eq_left hc, if_neg]
            intro hand
            exact absurd hand.1 (not_lt.mpr hc)
          · rw [min_eq_right (le_of_lt hc), if_pos]
            exact ⟨hc, by simpa using hlt⟩
        simp only [processLoop, offsetList, if_pos h1, if_neg h2,
          mkCheckpoint_eq_some env totalDuration totalDistance departureMs timeOffset hne,
          hmin, List.map_cons, ih]
    · simp [processLoop, offsetList, h1]
theorem checkpointAt_timeMs (env : Env) (totalDuration totalDistance : ℚ)
    (pathPoints : List PathPoint) (departureMs timeOffset : ℚ) :
    (checkpointAt env totalDuration totalDistance pathPoints departureMs timeOffset).timeMs =
      departureMs + timeOffset * 1000 := rfl
theorem checkpointAt_distanceFromStart (env : Env) (totalDuration totalDistance : ℚ)
    (pathPoints : List PathPoint) (departureMs timeOffset : ℚ) :
    (checkpointAt env totalDuration totalDistance pathPoints departureMs
        timeOffset).distanceFromStart =
      ⌊totalDistance * (if 0 < totalDuration then timeOffset / totalDuration else 0) / 1000⌋ :=
  rfl
/-- Behaviour of the visited-offset list under the fuel bound: it starts at the
current offset, ends exactly at the total duration, and is non-decreasing. -/
theorem offsetList_spec (totalDuration : ℚ) :
    ∀ (fuel : ℕ) (timeOffset : ℚ), timeOffset ≤ totalDuration →
      loopMeasure totalDuration timeOffset + 1 ≤ fuel →
      (offsetList totalDuration fuel timeOffset).head? = some timeOffset ∧
        (offsetList totalDuration fuel timeOffset).getLast? = some totalDuration ∧
        List.Chain' (· ≤ ·) (offsetList totalDuration fuel timeOffset) := by
  intro fuel
  induction fuel with
  | zero => intro timeOffset _ hfuel; omega
  | succ fuel ih =>
    intro timeOffset h1 hfuel
    by_cases h2 : totalDuration ≤ timeOffset
    · have heq : timeOffset = totalDuration := le_antisymm h1 h2
      subst heq
      simp [offsetList]
    · have hlt : timeOffset < totalDuration := lt_of_le_of_ne h1 (fun he => h2 (le_of_eq he.symm))
      have hIpos : (0 : ℚ) < CHECKPOINT_INTERVAL := by norm_num [CHECKPOINT_INTERVAL]
      have hceil_pos : 1 ≤ ⌈(totalDuration - timeOffset) / CHECKPOINT_INTERVAL⌉ := by
        have hq : ((0 : ℤ) : ℚ) < (totalDuration - timeOffset) / CHECKPOINT_INTERVAL := by
          push_cast
          exact div_pos (by linarith) hIpos
        exact Int.lt_ceil.mpr hq
      have hnext_le : min (timeOffset + CHECKPOINT_INTERVAL) totalDuration ≤ totalDuration :=
        min_le_right _ _
      have hnext_gt : timeOffset < min (timeOffset + CHECKPOINT_INTERVAL) totalDuration := by
        apply lt_min _ hlt
        linarith
      have hfuel' :
          loopMeasure totalDuration (min (timeOffset + CHECKPOINT_INTERVAL) totalDuration) + 1 ≤
            fuel := by
        unfold loopMeasure at hfuel ⊢
        rcases le_or_lt (timeOffset + CHECKPOINT_INTERVAL) totalDuration with hc | hc
        · rw [min_eq_left hc]
          have hsub : (totalDuration - (timeOffset + CHECKPOINT_INTERVAL)) / CHECKPOINT_INTERVAL =
              (totalDuration - timeOffset) / CHECKPOINT_INTERVAL - ((1 : ℤ) : ℚ) := by
            push_cast
            field_simp
            ring
          have hidc :
              ⌈(totalDuration - (timeOffset + CHECKPOINT_INTERVAL)) / CHECKPOINT_INTERVAL⌉ =
                ⌈(totalDuration - timeOffset) / CHECKPOINT_INTERVAL⌉ - 1 := by
            rw [hsub, Int.ceil_sub_int]
          omega
        · rw [min_eq_right (le_of_lt hc)]
          simp only [sub_self, zero_div, Int.ceil_zero]
          omega
      obtain ⟨ihh, ihl, ihc⟩ := ih _ hnext_le hfuel'
      have hres : offsetList totalDuration (fuel + 1) timeOffset =
          timeOffset ::
            offsetList totalDuration fuel (min (timeOffset + CHECKPOINT_INTERVAL) totalDuration) := by
        simp [offsetList, h1, h2]
      rw [hres]
      have hLne : offsetList totalDuration fuel
          (min (timeOffset + CHECKPOINT_INTERVAL) totalDuration) ≠ [] := by
        intro hnil
        rw [hnil] at ihh
        exact Option.noConfusion ihh
      refine ⟨rfl, ?_, ?_⟩
      · rw [show (timeOffset ::
            offsetList totalDuration fuel (min (timeOffset + CHECKPOINT_INTERVAL) totalDuration)) =
            [timeOffset] ++
              offsetList totalDuration fuel (min (timeOffset + CHECKPOINT_INTERVAL) totalDuration)
          from rfl]
        rw [List.getLast?_append_of_ne_nil _ hLne]
        exact ihl
      · rw [List.chain'_cons']
        refine ⟨?_, ihc⟩
        intro y hy
        rw [ihh] at hy
        simp only [Option.mem_def, Option.some.injEq] at hy
        subst hy
        exact le_of_lt hnext_gt
/-- On a route with a non-empty path, `_processCheckpoints` is the map of the
per-offset checkpoint constructor over the visited offsets. -/
theorem _processCheckpoints_eq_map (env : Env) (rd : RouteData) (departureMs : ℚ)
    (hne : rd.path ≠ []) :
    _processCheckpoints env (some rd) departureMs =
      (offsetList rd.duration (processFuel rd.duration) 0).map
        (checkpointAt env rd.duration rd.distance rd.path departureMs) := by
  have hempty : rd.path.isEmpty = false := by
    cases h : rd.path.isEmpty
    · rfl
    · exact absurd (List.isEmpty_iff.mp h) hne
  simp only [_processCheckpoints, hempty, Bool.false_eq_true, if_false]
  exact processLoop_eq_map env rd.duration rd.distance departureMs hne _ _
theorem processFuel_adequate (totalDuration : ℚ) :
    loopMeasure totalDuration 0 + 1 ≤ processFuel totalDuration := by
  unfold loopMeasure processFuel
  rw [sub_zero]
  omega
theorem checkpointAt_coord_mem (env : Env) (totalDuration totalDistance : ℚ)
    {pathPoints : List PathPoint} (departureMs timeOffset : ℚ)
    (hne : pathPoints ≠ []) :
    ∃ p ∈ pathPoints,
      (checkpointAt env totalDuration totalDistance pathPoints departureMs timeOffset).lat =
          some p.lat ∧
        (checkpointAt env totalDuration totalDistance pathPoints departureMs timeOffset).lng =
          some p.lng := by
  have hlen : 1 ≤ pathPoints.length := by
    cases pathPoints with
    | nil => exact absurd rfl hne
    | cons a l => simp
  have hidx := computePathIndex_toNat_lt
    (if 0 < totalDuration then timeOffset / totalDuration else 0) hlen
  refine ⟨pathPoints.get ⟨_, hidx⟩, List.get_mem _ _ _, ?_, ?_⟩ <;>
    simp [checkpointAt, List.getD_eq_getD_get?, List.get?_eq_get hidx,
      List.getElem?_eq_getElem hidx]
/-- C3: for every resolved route with positive duration and non-empty path,
the checkpoint sequence has non-decreasing timestamps, its first checkpoint is
at time offset 0 (i.e. at the departure instant) and its last checkpoint is
exactly at `departureTime + totalDurationSeconds` (the clamped final step
always makes `offset = D` the last iteration). -/
theorem c3_checkpoint_monotonicity (env : Env) (rd : RouteData) (departureMs : ℚ)
    (hpath : rd.path ≠ []) (hdur : 0 < rd.duration) :
    _processCheckpoints env (some rd) departureMs ≠ [] ∧
      (_processCheckpoints env (some rd) departureMs).head?.map Checkpoint.timeMs =
        some departureMs ∧
      (_processCheckpoints env (some rd) departureMs).getLast?.map Checkpoint.timeMs =
        some (departureMs + rd.duration * 1000) ∧
      List.Chain' (fun a b => a.timeMs ≤ b.timeMs)
        (_processCheckpoints env (some rd) departureMs) := by
  obtain ⟨hh, hl, hc⟩ := offsetList_spec rd.duration (processFuel rd.duration) 0
    (le_of_lt hdur) (processFuel_adequate rd.duration)
  rw [_processCheckpoints_eq_map env rd departureMs hpath]
  refine ⟨?_, ?_, ?_, ?_⟩
  · intro hnil
    rw [List.map_eq_nil_iff] at hnil
    rw [hnil] at hh
    exact Option.noConfusion hh
  · rw [List.head?_map, hh]
    simp [checkpointAt_timeMs]
  · rw [List.getLast?_map, hl]
    simp [checkpointAt_timeMs]
  · rw [List.chain'_map]
    refine hc.imp ?_
    intro a b hab
    simp only [checkpointAt_timeMs]
    linarith
/-- Witness for C3 at a concrete one-hour route. -/
theorem c3_checkpoint_monotonicity_witness :
    _processCheckpoints cexEnv (some ⟨3600, 1000, [⟨1, 2⟩], "OSRM"⟩) 0 ≠ [] ∧
      (_processCheckpoints cexEnv (some ⟨3600, 1000, [⟨1, 2⟩], "OSRM"⟩) 0).head?.map
          Checkpoint.timeMs = some 0 ∧
      (_processCheckpoints cexEnv (some ⟨3600, 1000, [⟨1, 2⟩], "OSRM"⟩) 0).getLast?.map
          Checkpoint.timeMs = some (0 + (3600 : ℚ) * 1000) ∧
      List.Chain' (fun a b => a.timeMs ≤ b.timeMs)
        (_processCheckpoints cexEnv (some ⟨3600, 1000, [⟨1, 2⟩], "OSRM"⟩) 0) :=
  c3_checkpoint_monotonicity cexEnv ⟨3600, 1000, [⟨1, 2⟩], "OSRM"⟩ 0
    (by simp) (by norm_num)
/-- C7: for `progress ∈ [0,1]` and a non-empty path, the clamped
`pathIndex = floor(progress * (pathLength - 1))` lies within
`[0, pathLength - 1]`, including at `progress = 1`, so the coordinate
selection never indexes out of bounds. -/
theorem c7_path_index_clamp (progress : ℚ) (pathLength : ℕ) (hlen : 1 ≤ pathLength)
    (h0 : 0 ≤ progress) (h1 : progress ≤ 1) :
    0 ≤ computePathIndex progress pathLength ∧
      computePathIndex progress pathLength ≤ (pathLength : ℤ) - 1 := by
  have ha := computePathIndex_nonneg progress hlen
  have hb := computePathIndex_lt progress hlen
  omega
/-- Witness for C7 at `progress = 1` on a five-point path. -/
theorem c7_path_index_clamp_witness :
    0 ≤ computePathIndex 1 5 ∧ computePathIndex 1 5 ≤ (5 : ℤ) - 1 :=
  c7_path_index_clamp 1 5 (by norm_num) (by norm_num) (by norm_num)
/-- C10: despite being called interpolation, every produced checkpoint's
coordinate pair occurs verbatim in the input path geometry: it is the path
element at the clamped index, never a synthesized point between vertices. -/
theorem c10_checkpoint_coords_in_path (env : Env) (rd : RouteData) (departureMs : ℚ)
    (hpath : rd.path ≠ []) :
    ∀ cp ∈ _processCheckpoints env (some rd) departureMs,
      ∃ p ∈ rd.path, cp.lat = some p.lat ∧ cp.lng = some p.lng := by
  intro cp hcp
  rw [_processCheckpoints_eq_map env rd departureMs hpath] at hcp
  obtain ⟨t, _, rfl⟩ := List.mem_map.1 hcp
  exact checkpointAt_coord_mem env rd.duration rd.distance departureMs t hpath
/-- Witness for C10 on a concrete zero-duration one-point route. -/
theorem c10_checkpoint_coords_in_path_witness :
    ∃ p ∈ [(⟨7, 8⟩ : PathPoint)],
      (checkpointAt cexEnv 0 0 [⟨7, 8⟩] 0 0).lat = some p.lat ∧
        (checkpointAt cexEnv 0 0 [⟨7, 8⟩] 0 0).lng = some p.lng := by
  apply c10_checkpoint_coords_in_path cexEnv ⟨0, 0, [⟨7, 8⟩], "OSRM"⟩ 0 (by simp)
  rw [_processCheckpoints_eq_map cexEnv ⟨0, 0, [⟨7, 8⟩], "OSRM"⟩ 0 (by simp)]
  have hfuel : processFuel 0 = 2 := by
    norm_num [processFuel]
  have hoff : offsetList 0 2 0 = [0] := by
    norm_num [offsetList]
  rw [hfuel, hoff]
  exact List.mem_singleton.mpr rfl
theorem checkpointAt_distanceFromStart_pos (env : Env) {totalDuration : ℚ}
    (totalDistance : ℚ) (pathPoints : List PathPoint) (departureMs timeOffset : ℚ)
    (hdur : 0 < totalDuration) :
    (checkpointAt env totalDuration totalDistance pathPoints departureMs
        timeOffset).distanceFromStart =
      ⌊totalDistance * (timeOffset / totalDuration) / 1000⌋ := by
  rw [checkpointAt_distanceFromStart, if_pos hdur]
/-- C9: on a 6-hour (21600 s), 430 km (430000 m) route departing at epoch
1717228800000 ms (2024-06-01T08:00:00Z), the interpolator produces exactly 7
checkpoints at hourly offsets 0..21600 s, the first at 08:00 and the last at
14:00 (epoch 1717250400000 ms), with `distanceFromStart` km non-decreasing
from 0 to 430. -/
theorem c9_six_hour_example (env : Env) (path : List PathPoint) (hne : path ≠ []) :
    (_processCheckpoints env (some ⟨21600, 430000, path, "OSRM"⟩) 1717228800000).length = 7 ∧
      (_processCheckpoints env (some ⟨21600, 430000, path, "OSRM"⟩) 1717228800000).map
          Checkpoint.timeMs =
        [1717228800000, 1717232400000, 1717236000000, 1717239600000, 1717243200000,
          1717246800000, 1717250400000] ∧
      (_processCheckpoints env (some ⟨21600, 430000, path, "OSRM"⟩) 1717228800000).map
          Checkpoint.distanceFromStart =
        [0, 71, 143, 215, 286, 358, 430] := by
  have hceil : (⌈(21600 : ℚ) / 3600⌉ : ℤ) = 6 := by
    rw [show ((21600 : ℚ) / 3600) = ((6 : ℤ) : ℚ) by norm_num, Int.ceil_intCast]
  have hfuel : processFuel 21600 = 8 := by
    unfold processFuel CHECKPOINT_INTERVAL
    rw [hceil]
    rfl
  have hoff : offsetList 21600 8 0 = [0, 3600, 7200, 10800, 14400, 18000, 21600] := by
    norm_num [offsetList, CHECKPOINT_INTERVAL]
  rw [_processCheckpoints_eq_map env ⟨21600, 430000, path, "OSRM"⟩ 1717228800000 hne]
  simp only [hfuel, hoff]
  have hdur : (0 : ℚ) < 21600 := by norm_num
  refine ⟨by simp, ?_, ?_⟩
  · simp only [List.map_cons, List.map_nil, checkpointAt_timeMs]
    norm_num
  · simp only [List.map_cons, List.map_nil,
      checkpointAt_distanceFromStart_pos env 430000 path 1717228800000 _ hdur]
    norm_num [Int.floor_eq_iff]
/-- Witness for C9 on a concrete two-point path. -/
theorem c9_six_hour_example_witness :
    (_processCheckpoints cexEnv (some ⟨21600, 430000, [⟨1, 2⟩, ⟨3, 4⟩], "OSRM"⟩)
          1717228800000).length = 7 ∧
      (_processCheckpoints cexEnv (some ⟨21600, 430000, [⟨1, 2⟩, ⟨3, 4⟩], "OSRM"⟩)
            1717228800000).map Checkpoint.timeMs =
        [1717228800000, 1717232400000, 1717236000000, 1717239600000, 1717243200000,
          1717246800000, 1717250400000] ∧
      (_processCheckpoints cexEnv (some ⟨21600, 430000, [⟨1, 2⟩, ⟨3, 4⟩], "OSRM"⟩)
            1717228800000).map Checkpoint.distanceFromStart =
        [0, 71, 143, 215, 286, 358, 430] :=
  c9_six_hour_example cexEnv [⟨1, 2⟩, ⟨3, 4⟩] (by simp)
/-- Counterexample to C2 as stated: a route with non-empty path and
*negative* duration yields the empty checkpoint sequence (not one synthetic
checkpoint), and a route with non-empty path and *zero* duration yields one
checkpoint that goes through the normal enrichment pipeline (place name from
the reverse geocoder, here "Curitiba, PR") rather than the placeholder
"Local de Partida" / "Dados indisponíveis" synthetic checkpoint. -/
theorem c2_counterexample :
    _processCheckpoints cexEnv (some ⟨-1, 0, [⟨0, 0⟩], "OSRM"⟩) 0 = [] ∧
      (_processCheckpoints cexEnv (some ⟨0, 0, [⟨0, 0⟩], "OSRM"⟩) 0).map
          Checkpoint.locationName = ["Curitiba, PR"] := by
  constructor
  · have h := processLoop_of_gt cexEnv (-1) 0 [⟨0, 0⟩] 0 (processFuel (-1))
      (show ¬ (0 : ℚ) ≤ -1 by norm_num)
    simp [_processCheckpoints, h]
  · rw [_processCheckpoints_eq_map cexEnv ⟨0, 0, [⟨0, 0⟩], "OSRM"⟩ 0 (by simp)]
    have hfuel : processFuel 0 = 2 := by norm_num [processFuel]
    have hoff : offsetList 0 2 0 = [0] := by norm_num [offsetList]
    rw [hfuel, hoff]
    simp [checkpointAt, cexEnv]
/-- C2 amended: only a missing/empty path produces the single synthetic
placeholder checkpoint.  A non-empty path with zero duration instead produces
exactly one checkpoint built by the normal enrichment pipeline (at the first
path point), and a non-empty path with negative duration produces the empty
sequence. -/
theorem c2_amended (env : Env) :
    (∀ departureMs : ℚ,
        _processCheckpoints env none departureMs = [syntheticCheckpoint departureMs]) ∧
      (∀ (rd : RouteData) (departureMs : ℚ), rd.path = [] →
        _processCheckpoints env (some rd) departureMs = [syntheticCheckpoint departureMs]) ∧
      (∀ (rd : RouteData) (departureMs : ℚ), rd.path ≠ [] → rd.duration = 0 →
        _processCheckpoints env (some rd) departureMs =
          [checkpointAt env rd.duration rd.distance rd.path departureMs 0]) ∧
      (∀ (rd : RouteData) (departureMs : ℚ), rd.path ≠ [] → rd.duration < 0 →
        _processCheckpoints env (some rd) departureMs = []) := by
  refine ⟨fun _ => rfl, ?_, ?_, ?_⟩
  · intro rd departureMs h
    simp [_processCheckpoints, h]
  · intro rd departureMs hne hdur
    rw [_processCheckpoints_eq_map env rd departureMs hne, hdur]
    have hfuel : processFuel 0 = 2 := by norm_num [processFuel]
    have hoff : offsetList 0 2 0 = [0] := by norm_num [offsetList]
    rw [hfuel, hoff]
    rfl
  · intro rd departureMs hne hdur
    have hempty : rd.path.isEmpty = false := by
      cases h : rd.path.isEmpty
      · rfl
      · exact absurd (List.isEmpty_iff.mp h) hne
    have h := processLoop_of_gt env rd.duration rd.distance rd.path departureMs
      (processFuel rd.duration) (not_le.mpr hdur)
    simp [_processCheckpoints, hempty, h]
/-- Witness for C2 (amended) at a concrete zero-duration route. -/
theorem c2_amended_witness :
    _processCheckpoints cexEnv (some ⟨0, 430000, [⟨1, 2⟩], "OSRM"⟩) 5 =
      [checkpointAt cexEnv 0 430000 [⟨1, 2⟩] 5 0] :=
  (c2_amended cexEnv).2.2.1 ⟨0, 430000, [⟨1, 2⟩], "OSRM"⟩ 5 (by simp) rfl
/-- C8: the weather-code translator is total on the integers: each of the 16
known WMO codes maps to its fixed label, and every other integer code maps to
the generic label containing the code number, never an error. -/
theorem c8_translate_wmo_total :
    (_translateWMO 0 = "Céu Limpo ☀️" ∧ _translateWMO 1 = "Predom. Limpo 🌤️" ∧
      _translateWMO 2 = "Parcial. Nublado ⛅" ∧ _translateWMO 3 = "Encoberto ☁️" ∧
      _translateWMO 45 = "Nevoeiro 🌫️" ∧ _translateWMO 48 = "Nevoeiro c/ Geada 🌫️" ∧
      _translateWMO 51 = "Garoa Leve 🌧️" ∧ _translateWMO 53 = "Garoa Moderada 🌧️" ∧
      _translateWMO 55 = "Garoa Densa 🌧️" ∧ _translateWMO 61 = "Chuva Fraca ☔" ∧
      _translateWMO 63 = "Chuva Moderada ☔" ∧ _translateWMO 65 = "Chuva Forte ⛈️" ∧
      _translateWMO 80 = "Pancadas de Chuva 🌦️" ∧ _translateWMO 81 = "Pancadas Fortes ⛈️" ∧
      _translateWMO 95 = "Tempestade ⚡" ∧ _translateWMO 96 = "Tempestade c/ Granizo ❄️⚡") ∧
      ∀ code : ℤ, code ∉ wmoKnownCodes →
        _translateWMO code = "Clima (" ++ toString code ++ ")" := by
  refine ⟨⟨rfl, rfl, rfl, rfl, rfl, rfl, rfl, rfl, rfl, rfl, rfl, rfl, rfl, rfl, rfl, rfl⟩, ?_⟩
  intro code h
  unfold _translateWMO
  split <;> simp_all [wmoKnownCodes]
/-- Witness for C8 at the unknown code 42. -/
theorem c8_translate_wmo_total_witness :
    _translateWMO 42 = "Clima (" ++ toString (42 : ℤ) ++ ")" :=
  c8_translate_wmo_total.2 42 (by decide)
/-- C4: the cascade is tried in the fixed order OSRM, GraphHopper, Mapbox and
the first success returns immediately: an OSRM success is returned as OSRM
with nothing else invoked; if OSRM fails and a configured GraphHopper
succeeds, the result carries GraphHopper's identity and Mapbox is never
invoked; an unconfigured provider (missing GraphHopper key or Mapbox token)
is skipped without being invoked. -/
theorem c4_cascade_order (env : ProviderEnv) :
    (∀ r : RawRoute, env.osrm = some r →
        _getRouteWithFallback env =
          (Except.ok ⟨r.duration, r.distance, r.path, "OSRM"⟩, ["OSRM"])) ∧
      (∀ r : RawGHRoute, env.osrm = none → env.graphhopperKey.isSome →
        env.graphhopper = some r →
        (_getRouteWithFallback env).1 =
            Except.ok ⟨r.time / 1000, r.distance, r.path, "GraphHopper"⟩ ∧
          (_getRouteWithFallback env).2 = ["OSRM", "GraphHopper"] ∧
          "Mapbox" ∉ (_getRouteWithFallback env).2) ∧
      (env.graphhopperKey = none → "GraphHopper" ∉ (_getRouteWithFallback env).2) ∧
      (env.mapboxToken = none → "Mapbox" ∉ (_getRouteWithFallback env).2) := by
  refine ⟨?_, ?_, ?_, ?_⟩
  · intro r h
    simp [_getRouteWithFallback, _getOSRMRoute, h]
  · intro r hosrm hkey hgh
    simp [_getRouteWithFallback, _getOSRMRoute, _getGraphHopperRoute, hosrm, hkey, hgh]
  · intro hkey
    rcases hosrm : env.osrm with _ | r
    · simp [_getRouteWithFallback, _getOSRMRoute, hosrm, hkey, fallbackMapbox]
      rcases htok : env.mapboxToken with _ | tok
      · simp
      · rcases hmb : _getMapboxRoute env with _ | r' <;> simp
    · simp [_getRouteWithFallback, _getOSRMRoute, hosrm]
  · intro htok
    rcases hosrm : env.osrm with _ | r
    · by_cases hkey : env.graphhopperKey.isSome
      · rcases hgh : _getGraphHopperRoute env with _ | r'
        · simp [_getRouteWithFallback, _getOSRMRoute, hosrm, hkey, hgh, fallbackMapbox, htok]
        · simp [_getRouteWithFallback, _getOSRMRoute, hosrm, hkey, hgh]
      · simp [_getRouteWithFallback, _getOSRMRoute, hosrm, hkey, fallbackMapbox, htok]
    · simp [_getRouteWithFallback, _getOSRMRoute, hosrm]
/-- Witness for C4: OSRM fails, GraphHopper is configured and succeeds,
Mapbox never invoked. -/
theorem c4_cascade_order_witness :
    (_getRouteWithFallback
          ⟨none, some "gh-key", some ⟨7200000, 100, [⟨1, 2⟩]⟩, some "mb-token",
            some ⟨1, 1, [⟨0, 0⟩]⟩⟩).1 =
        Except.ok ⟨(7200000 : ℚ) / 1000, 100, [⟨1, 2⟩], "GraphHopper"⟩ ∧
      (_getRouteWithFallback
          ⟨none, some "gh-key", some ⟨7200000, 100, [⟨1, 2⟩]⟩, some "mb-token",
            some ⟨1, 1, [⟨0, 0⟩]⟩⟩).2 = ["OSRM", "GraphHopper"] ∧
      "Mapbox" ∉ (_getRouteWithFallback
          ⟨none, some "gh-key", some ⟨7200000, 100, [⟨1, 2⟩]⟩, some "mb-token",
            some ⟨1, 1, [⟨0, 0⟩]⟩⟩).2 :=
  (c4_cascade_order _).2.1 ⟨7200000, 100, [⟨1, 2⟩]⟩ rfl rfl rfl
/-- C5: the cascade fails (with the fixed "route unavailable" error) if and
only if every configured provider fails: OSRM fails, and GraphHopper is
unconfigured or fails, and Mapbox is unconfigured or fails. -/
theorem c5_cascade_error_iff_all_fail (env : ProviderEnv) :
    (_getRouteWithFallback env).1 = Except.error routeUnavailableMsg ↔
      env.osrm = none ∧
        (env.graphhopperKey = none ∨ env.graphhopper = none) ∧
        (env.mapboxToken = none ∨ env.mapbox = none) := by
  obtain ⟨osrm, ghKey, gh, mbTok, mb⟩ := env
  rcases osrm with _ | r₁ <;> rcases ghKey with _ | k <;> rcases gh with _ | r₂ <;>
    rcases mbTok with _ | t <;> rcases mb with _ | r₃ <;>
      simp [_getRouteWithFallback, _getOSRMRoute, _getGraphHopperRoute, _getMapboxRoute,
        fallbackMapbox]
theorem jsToLowerCode_idem (n : ℕ) :
    jsToLowerCode (jsToLowerCode n) = jsToLowerCode n := by
  unfold jsToLowerCode
  split_ifs <;> omega
theorem isWsCode_lower_iff (n : ℕ) :
    isWsCode (jsToLowerCode n) = true ↔ isWsCode n = true := by
  unfold jsToLowerCode isWsCode
  split_ifs with h <;> simp <;> omega
theorem dropWhile_head?_false (p : ℕ → Bool) (l : List ℕ) :
    ∀ x ∈ (l.dropWhile p).head?, p x = false := by
  induction l with
  | nil => simp
  | cons a l ih =>
    rw [List.dropWhile_cons]
    split_ifs with h
    · exact ih
    · intro x hx
      simp only [List.head?_cons, Option.mem_def, Option.some.injEq] at hx
      subst hx
      cases hpa : p a
      · rfl
      · exact absurd hpa h
theorem dropWhile_eq_self_of_head (p : ℕ → Bool) (l : List ℕ)
    (h : ∀ x ∈ l.head?, p x = false) : l.dropWhile p = l := by
  cases l with
  | nil => rfl
  | cons a l =>
    have ha := h a (by simp)
    rw [List.dropWhile_cons, ha]
    simp
theorem dropWhile_isSuffix (p : ℕ → Bool) (l : List ℕ) : l.dropWhile p <:+ l := by
  induction l with
  | nil => exact List.suffix_refl _
  | cons a l ih =>
    rw [List.dropWhile_cons]
    split_ifs with h
    · exact ih.trans (List.suffix_cons a l)
    · exact List.suffix_refl _
theorem getLast?_of_isSuffix {l₁ l₂ : List ℕ} (h : l₁ <:+ l₂) (hne : l₁ ≠ []) :
    l₂.getLast? = l₁.getLast? := by
  obtain ⟨u, rfl⟩ := h
  exact List.getLast?_append_of_ne_nil u hne
theorem trimCodes_head? (s : List ℕ) :
    ∀ x ∈ (trimCodes s).head?, isWsCode x = false := by
  unfold trimCodes
  intro x hx
  rw [List.head?_reverse] at hx
  by_cases hB : List.dropWhile isWsCode (List.dropWhile isWsCode s).reverse = []
  · rw [hB] at hx
    simp at hx
  · rw [← getLast?_of_isSuffix (dropWhile_isSuffix isWsCode _) hB,
      List.getLast?_reverse] at hx
    exact dropWhile_head?_false isWsCode s x hx
theorem trimCodes_getLast? (s : List ℕ) :
    ∀ x ∈ (trimCodes s).getLast?, isWsCode x = false := by
  unfold trimCodes
  intro x hx
  rw [List.getLast?_reverse] at hx
  exact dropWhile_head?_false isWsCode _ x hx
theorem trimCodes_eq_self (s : List ℕ)
    (hh : ∀ x ∈ s.head?, isWsCode x = false)
    (hl : ∀ x ∈ s.getLast?, isWsCode x = false) : trimCodes s = s := by
  unfold trimCodes
  rw [dropWhile_eq_self_of_head isWsCode s hh,
    dropWhile_eq_self_of_head isWsCode s.reverse
      (by intro x hx; rw [List.head?_reverse] at hx; exact hl x hx),
    List.reverse_reverse]
theorem trimCodes_idem (s : List ℕ) : trimCodes (trimCodes s) = trimCodes s :=
  trimCodes_eq_self _ (trimCodes_head? s) (trimCodes_getLast? s)
theorem normalizeKeyText_idem (s : List ℕ) :
    normalizeKeyText (normalizeKeyText s) = normalizeKeyText s := by
  unfold normalizeKeyText
  have hlow : ∀ (t : List ℕ), (∀ x ∈ t, isWsCode x = false) →
      ∀ x ∈ t.map jsToLowerCode, isWsCode x = false := by
    intro t ht x hx
    obtain ⟨y, hy, rfl⟩ := List.mem_map.1 hx
    have hwy := ht y hy
    cases hw : isWsCode (jsToLowerCode y)
    · rfl
    · rw [(isWsCode_lower_iff y).mp hw] at hwy
      exact hwy
  have htrim : trimCodes ((trimCodes s).map jsToLowerCode) =
      (trimCodes s).map jsToLowerCode := by
    apply trimCodes_eq_self
    · intro x hx
      rw [List.head?_map] at hx
      rcases hh : (trimCodes s).head? with _ | y
      · rw [hh] at hx
        simp at hx
      · rw [hh] at hx
        simp only [Option.map_some', Option.mem_def, Option.some.injEq] at hx
        subst hx
        have hwy := trimCodes_head? s y (by rw [hh]; rfl)
        cases hw : isWsCode (jsToLowerCode y)
        · rfl
        · rw [(isWsCode_lower_iff y).mp hw] at hwy
          exact hwy
    · intro x hx
      rw [List.getLast?_map] at hx
      rcases hh : (trimCodes s).getLast? with _ | y
      · rw [hh] at hx
        simp at hx
      · rw [hh] at hx
        simp only [Option.map_some', Option.mem_def, Option.some.injEq] at hx
        subst hx
        have hwy := trimCodes_getLast? s y (by rw [hh]; rfl)
        cases hw : isWsCode (jsToLowerCode y)
        · rfl
        · rw [(isWsCode_lower_iff y).mp hw] at hwy
          exact hwy
  rw [htrim, List.map_map]
  exact List.map_congr_left fun a _ => jsToLowerCode_idem a
/-- C6: request normalization is idempotent; the example strings
`" São Paulo "` and `"são paulo"` normalize to the same key component; and
two requests map to the same `NormalizedKey` iff their normalized origins,
normalized destinations, and departure hour buckets all coincide. -/
theorem c6_normalization :
    (∀ s : List ℕ, normalizeKeyText (normalizeKeyText s) = normalizeKeyText s) ∧
      normalizeKeyText (codepoints " São Paulo ") =
        normalizeKeyText (codepoints "são paulo") ∧
      ∀ (o₁ d₁ : List ℕ) (h₁ : String) (o₂ d₂ : List ℕ) (h₂ : String),
        requestKey o₁ d₁ h₁ = requestKey o₂ d₂ h₂ ↔
          (normalizeKeyText o₁ = normalizeKeyText o₂ ∧
            normalizeKeyText d₁ = normalizeKeyText d₂ ∧ h₁ = h₂) := by
  refine ⟨normalizeKeyText_idem, ?_, ?_⟩
  · decide
  · intro o₁ d₁ h₁ o₂ d₂ h₂
    simp [requestKey, NormalizedKey.mk.injEq]
/-- Selection lemma: `queryLatest` really is the newest-wins selection: it returns a matching
row of the table whose `created_at` dominates every matching row. -/
theorem queryLatest_spec (rows : List CacheRow) (origin dest dateKey : String) :
    ∀ row, queryLatest rows origin dest dateKey = some row →
      row ∈ rows ∧ rowMatches origin dest dateKey row = true ∧
        ∀ r ∈ rows, rowMatches origin dest dateKey r = true →
          r.created_at ≤ row.created_at := by
  have aux : ∀ (l : List CacheRow) (acc : Option CacheRow) (row : CacheRow),
      l.foldl pickNewest acc = some row →
      (row ∈ l ∨ acc = some row) ∧ (∀ r ∈ l, r.created_at ≤ row.created_at) ∧
        (∀ a, acc = some a → a.created_at ≤ row.created_at) := by
    intro l
    induction l with
    | nil =>
      intro acc row h
      rw [List.foldl_nil] at h
      refine ⟨Or.inr h, by simp, ?_⟩
      intro a ha
      rw [h] at ha
      cases ha
      exact le_refl _
    | cons b l ih =>
      intro acc row h
      rw [List.foldl_cons] at h
      obtain ⟨hmem, hall, hacc⟩ := ih _ row h
      have hpick : ∀ a, pickNewest acc b = some a →
          (a = b ∨ acc = some a) ∧ b.created_at ≤ a.created_at := by
        intro a ha
        rcases acc with _ | best
        · rw [show pickNewest none b = some b from rfl] at ha
          cases ha
          exact ⟨Or.inl rfl, le_refl _⟩
        · rw [show pickNewest (some best) b =
              (if best.created_at < b.created_at then some b else some best) from rfl] at ha
          by_cases hlt : best.created_at < b.created_at
          · rw [if_pos hlt] at ha
            cases ha
            exact ⟨Or.inl rfl, le_refl _⟩
          · rw [if_neg hlt] at ha
            cases ha
            exact ⟨Or.inr rfl, not_lt.mp hlt⟩
      have hb : b.created_at ≤ row.created_at := by
        rcases hp : pickNewest acc b with _ | a
        · rcases acc with _ | best
          · exact absurd hp (by simp [pickNewest])
          · rw [show pickNewest (some best) b =
                (if best.created_at < b.created_at then some b else some best) from rfl] at hp
            by_cases hlt : best.created_at < b.created_at <;> simp [hlt] at hp
        · exact le_trans (hpick a hp).2 (hacc a hp)
      refine ⟨?_, ?_, ?_⟩
      · rcases hmem with hm | hm
        · exact Or.inl (List.mem_cons_of_mem b hm)
        · rcases (hpick row hm).1 with hr | hr
          · subst hr
            exact Or.inl (List.mem_cons_self _ _)
          · exact Or.inr hr
      · intro r hr
        rcases List.mem_cons.1 hr with hr | hr
        · subst hr
          exact hb
        · exact hall r hr
      · intro a ha
        subst ha
        rcases hp : pickNewest (some a) b with _ | c
        · rw [show pickNewest (some a) b =
              (if a.created_at < b.created_at then some b else some a) from rfl] at hp
          by_cases hlt : a.created_at < b.created_at <;> simp [hlt] at hp
        · have hc := hacc c hp
          rw [show pickNewest (some a) b =
              (if a.created_at < b.created_at then some b else some a) from rfl] at hp
          by_cases hlt : a.created_at < b.created_at
          · rw [if_pos hlt] at hp
            cases hp
            exact le_trans (le_of_lt hlt) hc
          · rw [if_neg hlt] at hp
            cases hp
            exact hc
  intro row h
  obtain ⟨hmem, hall, _⟩ := aux _ none row h
  rcases hmem with hm | hm
  · obtain ⟨hrows, hmatch⟩ := List.mem_filter.1 hm
    refine ⟨hrows, hmatch, ?_⟩
    intro r hr hmr
    exact hall r (List.mem_filter.2 ⟨hr, hmr⟩)
  · cases hm
/-- The part_000 lookup honours the claim: absent when nothing matches, absent
when the newest matching entry is expired, the newest matching entry's payload
otherwise. -/
theorem checkCache_part000_spec (rows : List CacheRow)
    (origin dest dateKey : String) (now : ℤ) :
    (queryLatest rows origin dest dateKey = none →
        _checkCache_part000 rows origin dest dateKey now = none) ∧
      ∀ row, queryLatest rows origin dest dateKey = some row →
        (CACHE_TTL ≤ now - row.created_at →
            _checkCache_part000 rows origin dest dateKey now = none) ∧
          (now - row.created_at < CACHE_TTL →
            _checkCache_part000 rows origin dest dateKey now = some row.data) := by
  constructor
  · intro h
    simp [_checkCache_part000, h]
  · intro row h
    constructor
    · intro hexp
      simp [_checkCache_part000, h, not_lt.mpr hexp]
    · intro hfresh
      simp [_checkCache_part000, h, hfresh]
/-- C1 evaluation: the `src/server.js` `_checkCache` serves the entry with
`createdAt = now - TTL - 1s` (the claim requires a miss) and, given two fresh
entries for one key, serves the *older* one (the claim requires the most
recently created); the `src/unnamed/part_000` `_checkCache`, also cited by the
claim, behaves as the claim states on both inputs. -/
theorem c1_cache_ttl_recency_eval :
    _checkCache [staleRow] "rio de janeiro" "são paulo" "2024-06-01T08" c1Now =
        some "stale-payload" ∧
      _checkCache_part000 [staleRow] "rio de janeiro" "são paulo" "2024-06-01T08" c1Now =
        none ∧
      _checkCache [oldRow, newRow] "rio de janeiro" "são paulo" "2024-06-01T08" c1Now =
        some "old-payload" ∧
      _checkCache_part000 [oldRow, newRow] "rio de janeiro" "são paulo" "2024-06-01T08"
          c1Now = some "new-payload" := by
  refine ⟨?_, ?_, ?_, ?_⟩ <;> decide

end WeatherRoute
